import Mathlib

/-!
Shallow embedding of the `crow_ecs` crate (dense and sparse component
storages with a skip-ahead merge join) and proofs about its claims.

Machine integers: `usize` is modelled as `Nat`; `usize::MAX` is the constant
`USIZE_MAX = 2 ^ 64 - 1`.  Rust vectors and slices become lists, a slice
borrow `&inner[c..]` becomes a pair of the full list and a cursor `c`.
A `BTreeMap<usize, T>` becomes an association list whose keys are strictly
ascending (the predicate `SparseSorted`).

Stateful iterators become explicit state passing: each Rust iterator type is
embedded as a `JoinIter σ ι`, a record of its `next`, `nth` and `may_skip`
methods, each mapping a state in `σ` to a result and an updated state.
-/

def USIZE_MAX : Nat := 2 ^ 64 - 1

/-- Indexing `inner.get(i)` of a `Vec<Option<T>>`: `some` slot when in range. -/
def listGet {α : Type} : List α → Nat → Option α
  | [], _ => none
  | a :: _, 0 => some a
  | _ :: l, n + 1 => listGet l n

/-- Writing through `inner.get_mut(i)`: out-of-range writes leave the list unchanged. -/
def listSet {α : Type} : List α → Nat → α → List α
  | [], _, _ => []
  | _ :: l, 0, b => b :: l
  | a :: l, n + 1, b => a :: listSet l n b

/-- The dense `Storage<T>`: the backing `Vec<Option<T>>` from `src/lib.rs`. -/
abbrev Storage (α : Type) : Type := List (Option α)

/-- Length of the backing array, `self.inner.len()`. -/
def Storage.len {α : Type} (s : Storage α) : Nat := List.length s

/-- `Storage::get`: `inner.get(idx)` flattened from `Option<&Option<T>>` to `Option<&T>`. -/
def Storage.get {α : Type} (s : Storage α) (idx : Nat) : Option α :=
  (listGet s idx).join

/-- `Storage::insert`: grows the vector with `none` slots up to `idx` when needed,
then replaces slot `idx` with `some c`, returning the previous slot. -/
def Storage.insert {α : Type} (s : Storage α) (idx : Nat) (c : α) : Option α × Storage α :=
  let grown := if List.length s ≤ idx then s ++ List.replicate (idx + 1 - List.length s) none else s
  ((listGet grown idx).join, listSet grown idx (some c))

/-- `Storage::remove`: takes the value out of slot `idx` when in range. -/
def Storage.remove {α : Type} (s : Storage α) (idx : Nat) : Option α × Storage α :=
  if idx < List.length s then ((listGet s idx).join, listSet s idx none) else (none, s)

/-- `Storage::clear`: set every slot to `none` without shrinking. -/
def Storage.clear {α : Type} (s : Storage α) : Storage α :=
  s.map (fun _ => none)

/-- The `SparseStorage<T>`: its `BTreeMap<usize, T>` as an association list in
ascending key order. -/
abbrev SparseStorage (α : Type) : Type := List (Nat × α)

/-- Keys of the map, in order. -/
def SparseStorage.keys {α : Type} (s : SparseStorage α) : List Nat := s.map Prod.fst

/-- The `BTreeMap` invariant: keys strictly ascending (hence unique). -/
def SparseSorted {α : Type} (s : SparseStorage α) : Prop :=
  List.Pairwise (fun a b => a.1 < b.1) s

/-- `SparseStorage::get`, that is `BTreeMap::get`. -/
def SparseStorage.get {α : Type} : SparseStorage α → Nat → Option α
  | [], _ => none
  | (k, v) :: t, idx => if k = idx then some v else SparseStorage.get t idx

/-- `SparseStorage::insert`, that is `BTreeMap::insert` on the ordered
representation: place the pair at its key position, returning any previous value. -/
def SparseStorage.insert {α : Type} : SparseStorage α → Nat → α → Option α × SparseStorage α
  | [], k, v => (none, [(k, v)])
  | (k', v') :: t, k, v =>
    if k < k' then (none, (k, v) :: (k', v') :: t)
    else if k = k' then (some v', (k, v) :: t)
    else ((SparseStorage.insert t k v).1, (k', v') :: (SparseStorage.insert t k v).2)

/-- `SparseStorage::remove`, that is `BTreeMap::remove` on the ordered representation. -/
def SparseStorage.remove {α : Type} : SparseStorage α → Nat → Option α × SparseStorage α
  | [], _ => (none, [])
  | (k', v') :: t, k =>
    if k = k' then (some v', t)
    else if k < k' then (none, (k', v') :: t)
    else ((SparseStorage.remove t k).1, (k', v') :: (SparseStorage.remove t k).2)

/-- `SparseStorage::clear`. -/
def SparseStorage.clear {α : Type} (_ : SparseStorage α) : SparseStorage α := []

/-- `self.inner.range(p..).next()`: the first entry whose key is at or after `p`
(the least such key, by the ascending-order invariant). -/
def rangeNext {α : Type} : SparseStorage α → Nat → Option (Nat × α)
  | [], _ => none
  | (k, v) :: t, p => if p ≤ k then some (k, v) else rangeNext t p

/-- `self.inner.keys().last()`. -/
def lastKey {α : Type} (s : SparseStorage α) : Option Nat :=
  (SparseStorage.keys s).getLast?

/-- The `Join` + `Iterator` interface of one iteration strategy: explicit state
passing for the three methods the merge driver and the combinators use. -/
structure JoinIter (σ : Type) (ι : Type) : Type where
  next : σ → Option ι × σ
  nth : σ → Nat → Option ι × σ
  may_skip : σ → Nat → Nat × σ

/-- Count of leading `none` slots, `slice.iter().take_while(is_none).count()`. -/
def leadingNones {α : Type} (l : List (Option α)) : Nat :=
  (l.takeWhile (fun o => o.isNone)).length

/-- Count of leading `some` slots, used by the negated dense strategy. -/
def leadingSomes {α : Type} (l : List (Option α)) : Nat :=
  (l.takeWhile (fun o => o.isSome)).length

/-- `Iter::nth` from `src/lib.rs`: the slice `&inner[c..]` is the pair of the full
list and the cursor `c`; `nth n` yields slot `n` of the remaining slice and
drops `n + 1` slots, or empties the slice when out of range. -/
def Iter.nth {α : Type} (s : Storage α × Nat) (n : Nat) : Option α × (Storage α × Nat) :=
  if n < (s.1.drop s.2).length then ((listGet (s.1.drop s.2) n).join, (s.1, s.2 + n + 1))
  else (none, (s.1, s.1.length))

/-- The strategy of `&Storage<T>`: `Iter` with its `Join` impl
(`may_skip` counts the leading `none` run of the remaining slice, ignoring `curr`). -/
def Iter (α : Type) : JoinIter (Storage α × Nat) α where
  next s := Iter.nth s 0
  nth := Iter.nth
  may_skip s _curr := (leadingNones (s.1.drop s.2), s)

/-- `SparseIter::next`: look up the stored position and advance it by one. -/
def SparseIter.next {α : Type} (s : SparseStorage α × Nat) : Option α × (SparseStorage α × Nat) :=
  (SparseStorage.get s.1 s.2, (s.1, s.2 + 1))

/-- The strategy of `&SparseStorage<T>`: `SparseIter`. Its `may_skip` first sets
the stored position to `curr`, then reports the distance to the next key at or
after `curr`, or `usize::MAX` when none exists. -/
def SparseIter (α : Type) : JoinIter (SparseStorage α × Nat) α where
  next := SparseIter.next
  nth s n := SparseIter.next (s.1, s.2 + n)
  may_skip s curr :=
    (match rangeNext s.1 curr with
      | some e => e.1 - curr
      | none => USIZE_MAX,
     (s.1, curr))

/-- The strategy of `Entities`: yields every position, `may_skip` is `0`. -/
def EntitiesIter : JoinIter Nat Nat where
  next p := (some p, p + 1)
  nth p n := (some (p + n), p + n + 1)
  may_skip p _curr := (0, p)

/-- `Joined::new(iter, len)` drives a strategy: one `next` call of the merge loop,
with an explicit fuel argument.  The Rust loop `while pos < len` terminates within
any one call because `pos` strictly increases on the probe-failed branch, so fuel
`len - pos` (supplied by `joinedNext`) reproduces it exactly. -/
def joinedLoop {σ ι : Type} (it : JoinIter σ ι) (len : Nat) :
    Nat → σ → Nat → Option (ι × σ × Nat)
  | 0, _, _ => none
  | fuel + 1, s, pos =>
    if pos < len then
      match (it.nth (it.may_skip s pos).2 (it.may_skip s pos).1).1 with
      | some v =>
        some (v, (it.nth (it.may_skip s pos).2 (it.may_skip s pos).1).2,
          pos + (it.may_skip s pos).1)
      | none =>
        joinedLoop it len fuel (it.nth (it.may_skip s pos).2 (it.may_skip s pos).1).2
          (pos + (it.may_skip s pos).1 + 1)
    else none

/-- `<Joined<T> as Iterator>::next` from `src/lib.rs`: skip by `may_skip`, probe
with `nth`; yield keeps the position, a failed probe advances it by one. -/
def joinedNext {σ ι : Type} (it : JoinIter σ ι) (len : Nat) (s : σ) (pos : Nat) :
    Option (ι × σ × Nat) :=
  joinedLoop it len (len - pos) s pos

/-- Repeatedly call `joinedNext`, recording each yielded item with the driver
position at which it was yielded; `fuel` bounds the number of `next` calls. -/
def joinedRun {σ ι : Type} (it : JoinIter σ ι) (len : Nat) :
    Nat → σ → Nat → List (ι × Nat)
  | 0, _, _ => []
  | fuel + 1, s, pos =>
    match joinedNext it len s pos with
    | none => []
    | some (v, s1, pos1) => (v, pos1) :: joinedRun it len fuel s1 pos1

/-- Items of a run, without their positions. -/
def joinedItems {σ ι : Type} (it : JoinIter σ ι) (len : Nat) (fuel : Nat) (s : σ) (pos : Nat) :
    List ι :=
  (joinedRun it len fuel s pos).map Prod.fst

/-- Upper bound reported by `<&Storage<T> as Joinable>::join`: the array length. -/
def denseLen {α : Type} (s : Storage α) : Nat := Storage.len s

/-- Upper bound reported by `<&SparseStorage<T> as Joinable>::join`:
`self.inner.keys().last().copied().unwrap_or(0)`. -/
def sparseLen {α : Type} (s : SparseStorage α) : Nat :=
  (lastKey s).getD 0

/-- Upper bound reported by `<SparseDrain as Joinable>::join`:
`self.inner.keys().last().copied().map_or(0, |v| v + 1)`. -/
def sparseDrainLen {α : Type} (s : SparseStorage α) : Nat :=
  match lastKey s with
  | some v => v + 1
  | none => 0

/-- The bound the spec ascribes to every sparse strategy, following the spec's
words: the greatest stored key plus one, or zero when the storage is empty. -/
def sparseLenSpec {α : Type} (s : SparseStorage α) : Nat :=
  match lastKey s with
  | some v => v + 1
  | none => 0

/-- The `Maybe<T>` wrapper from `src/maybe.rs`: every probe answers `some`,
wrapping the inner result; `may_skip` is `0` and leaves the inner state alone. -/
def Maybe {σ ι : Type} (it : JoinIter σ ι) : JoinIter σ (Option ι) where
  next s := (some (it.next s).1, (it.next s).2)
  nth s n := (some (it.nth s n).1, (it.nth s n).2)
  may_skip s _curr := (0, s)

/-- The `NegatedIter` from `src/not.rs`: wraps the dense `Iter`, yields `()`
exactly where the wrapped probe is absent; `may_skip` counts the leading run of
present slots of the remaining slice. -/
def NegatedIter (α : Type) : JoinIter (Storage α × Nat) Unit where
  next s :=
    (match (Iter.nth s 0).1 with
      | some _ => none
      | none => some (),
     (Iter.nth s 0).2)
  nth s n :=
    (match (Iter.nth s n).1 with
      | some _ => none
      | none => some (),
     (Iter.nth s n).2)
  may_skip s _curr := (leadingSomes (s.1.drop s.2), s)

/-- The `NegatedSparseIter` from `src/not.rs`: wraps `SparseIter`, yields `()`
exactly where the wrapped probe is absent; `may_skip` is conservatively `0` and
does not touch the inner state. -/
def NegatedSparseIter (α : Type) : JoinIter (SparseStorage α × Nat) Unit where
  next s :=
    (match (SparseIter.next s).1 with
      | some _ => none
      | none => some (),
     (SparseIter.next s).2)
  nth s n :=
    (match (SparseIter.next (s.1, s.2 + n)).1 with
      | some _ => none
      | none => some (),
     (SparseIter.next (s.1, s.2 + n)).2)
  may_skip s _curr := (0, s)

/-- `Drain::next` from `src/drain.rs`: remove the slot at the drain index and
advance the index, returning whatever was removed. -/
def Drain.next {α : Type} (s : Storage α × Nat) : Option α × (Storage α × Nat) :=
  ((Storage.remove s.1 s.2).1, ((Storage.remove s.1 s.2).2, s.2 + 1))

/-- `Drain::nth`: remove and discard `n` slots, then `next`. -/
def Drain.nth {α : Type} : (Storage α × Nat) → Nat → Option α × (Storage α × Nat)
  | s, 0 => Drain.next s
  | s, n + 1 => Drain.nth ((Storage.remove s.1 s.2).2, s.2 + 1) n

/-- The dense drain strategy: its `may_skip` counts the leading `none` run of
`self.0.inner[curr..]`, reading from `curr` rather than the drain index. -/
def Drain (α : Type) : JoinIter (Storage α × Nat) α where
  next := Drain.next
  nth := Drain.nth
  may_skip s curr := (leadingNones (s.1.drop curr), s)

/-- The dense `Drain` has no `Drop` impl in `src/drain.rs`, so dropping it
performs no cleanup: the source storage is left exactly as it currently is. -/
def Drain.drop {α : Type} (s : Storage α × Nat) : Storage α := s.1

/-- `SparseDrain::next`: remove the stored position's key and advance. -/
def SparseDrain.next {α : Type} (s : SparseStorage α × Nat) :
    Option α × (SparseStorage α × Nat) :=
  ((SparseStorage.remove s.1 s.2).1, ((SparseStorage.remove s.1 s.2).2, s.2 + 1))

/-- The sparse drain strategy from `src/drain.rs`: `may_skip` sets the stored
position to `curr` and reports the distance to the next remaining key, or
`usize::MAX` when the map holds no key at or after `curr`. -/
def SparseDrain (α : Type) : JoinIter (SparseStorage α × Nat) α where
  next := SparseDrain.next
  nth s n := SparseDrain.next (s.1, s.2 + n)
  may_skip s curr :=
    (match rangeNext s.1 curr with
      | some e => e.1 - curr
      | none => USIZE_MAX,
     (s.1, curr))

/-- `impl Drop for SparseDrain`: dropping clears the source map. -/
def SparseDrain.drop {α : Type} (_ : SparseStorage α × Nat) : SparseStorage α := []

/-- The pair strategy `TupleJoin2` from `src/tuple.rs`.  Its `next` is the
source's (yield only when both components yield).  Modelled from the spec: the
`Join` impl and the `nth` override of the tuple strategies are absent from
`src`, so `may_skip` takes the maximum of the component hints and `nth`
advances both components in lockstep, as section 4.5 of the spec describes. -/
def TupleJoin2 {σ₁ σ₂ ι₁ ι₂ : Type} (a : JoinIter σ₁ ι₁) (b : JoinIter σ₂ ι₂) :
    JoinIter (σ₁ × σ₂) (ι₁ × ι₂) where
  next s :=
    (match (a.next s.1).1, (b.next s.2).1 with
      | some x, some y => some (x, y)
      | _, _ => none,
     ((a.next s.1).2, (b.next s.2).2))
  nth s n :=
    (match (a.nth s.1 n).1, (b.nth s.2 n).1 with
      | some x, some y => some (x, y)
      | _, _ => none,
     ((a.nth s.1 n).2, (b.nth s.2 n).2))
  may_skip s curr :=
    (Nat.max (a.may_skip s.1 curr).1 (b.may_skip s.2 curr).1,
     ((a.may_skip s.1 curr).2, (b.may_skip s.2 curr).2))

/-- Upper bound of `(A, B).join()` from `src/tuple.rs`: `cmp::min(a.len, b.len)`. -/
def tupleLen2 (la lb : Nat) : Nat := Nat.min la lb

/-- The triple strategy `TupleJoin3`; `next` and the bound are from
`src/tuple.rs`, `may_skip` and `nth` modelled from the spec as for `TupleJoin2`. -/
def TupleJoin3 {σ₁ σ₂ σ₃ ι₁ ι₂ ι₃ : Type} (a : JoinIter σ₁ ι₁) (b : JoinIter σ₂ ι₂)
    (c : JoinIter σ₃ ι₃) : JoinIter (σ₁ × σ₂ × σ₃) (ι₁ × ι₂ × ι₃) where
  next s :=
    (match (a.next s.1).1, (b.next s.2.1).1, (c.next s.2.2).1 with
      | some x, some y, some z => some (x, y, z)
      | _, _, _ => none,
     ((a.next s.1).2, (b.next s.2.1).2, (c.next s.2.2).2))
  nth s n :=
    (match (a.nth s.1 n).1, (b.nth s.2.1 n).1, (c.nth s.2.2 n).1 with
      | some x, some y, some z => some (x, y, z)
      | _, _, _ => none,
     ((a.nth s.1 n).2, (b.nth s.2.1 n).2, (c.nth s.2.2 n).2))
  may_skip s curr :=
    (Nat.max (a.may_skip s.1 curr).1
      (Nat.max (b.may_skip s.2.1 curr).1 (c.may_skip s.2.2 curr).1),
     ((a.may_skip s.1 curr).2, (b.may_skip s.2.1 curr).2, (c.may_skip s.2.2 curr).2))

/-- Upper bound of `(A, B, C).join()`: `a.len.min(b.len).min(c.len)`. -/
def tupleLen3 (la lb lc : Nat) : Nat := Nat.min (Nat.min la lb) lc

/-- The quadruple strategy `TupleJoin4`; `next` and the bound are from
`src/tuple.rs`, `may_skip` and `nth` modelled from the spec as for `TupleJoin2`. -/
def TupleJoin4 {σ₁ σ₂ σ₃ σ₄ ι₁ ι₂ ι₃ ι₄ : Type} (a : JoinIter σ₁ ι₁) (b : JoinIter σ₂ ι₂)
    (c : JoinIter σ₃ ι₃) (d : JoinIter σ₄ ι₄) :
    JoinIter (σ₁ × σ₂ × σ₃ × σ₄) (ι₁ × ι₂ × ι₃ × ι₄) where
  next s :=
    (match (a.next s.1).1, (b.next s.2.1).1, (c.next s.2.2.1).1, (d.next s.2.2.2).1 with
      | some x, some y, some z, some w => some (x, y, z, w)
      | _, _, _, _ => none,
     ((a.next s.1).2, (b.next s.2.1).2, (c.next s.2.2.1).2, (d.next s.2.2.2).2))
  nth s n :=
    (match (a.nth s.1 n).1, (b.nth s.2.1 n).1, (c.nth s.2.2.1 n).1, (d.nth s.2.2.2 n).1 with
      | some x, some y, some z, some w => some (x, y, z, w)
      | _, _, _, _ => none,
     ((a.nth s.1 n).2, (b.nth s.2.1 n).2, (c.nth s.2.2.1 n).2, (d.nth s.2.2.2 n).2))
  may_skip s curr :=
    (Nat.max (a.may_skip s.1 curr).1
      (Nat.max (b.may_skip s.2.1 curr).1
        (Nat.max (c.may_skip s.2.2.1 curr).1 (d.may_skip s.2.2.2 curr).1)),
     ((a.may_skip s.1 curr).2, (b.may_skip s.2.1 curr).2,
      (c.may_skip s.2.2.1 curr).2, (d.may_skip s.2.2.2 curr).2))

/-- Upper bound of `(A, B, C, D).join()`: `a.len.min(b.len).min(c.len).min(d.len)`. -/
def tupleLen4 (la lb lc ld : Nat) : Nat := Nat.min (Nat.min (Nat.min la lb) lc) ld

/-- Modelled from the spec: the five-way tuple strategy, which the spec's
section 4.5 includes (N = 2..6) but which is absent from `src/tuple.rs`.
Componentwise lockstep `next`/`nth`, maximum `may_skip`. -/
def TupleJoin5 {σ₁ σ₂ σ₃ σ₄ σ₅ ι₁ ι₂ ι₃ ι₄ ι₅ : Type} (a : JoinIter σ₁ ι₁)
    (b : JoinIter σ₂ ι₂) (c : JoinIter σ₃ ι₃) (d : JoinIter σ₄ ι₄) (e : JoinIter σ₅ ι₅) :
    JoinIter (σ₁ × σ₂ × σ₃ × σ₄ × σ₅) (ι₁ × ι₂ × ι₃ × ι₄ × ι₅) where
  next s :=
    (match (a.next s.1).1, (b.next s.2.1).1, (c.next s.2.2.1).1,
        (d.next s.2.2.2.1).1, (e.next s.2.2.2.2).1 with
      | some x, some y, some z, some w, some u => some (x, y, z, w, u)
      | _, _, _, _, _ => none,
     ((a.next s.1).2, (b.next s.2.1).2, (c.next s.2.2.1).2,
      (d.next s.2.2.2.1).2, (e.next s.2.2.2.2).2))
  nth s n :=
    (match (a.nth s.1 n).1, (b.nth s.2.1 n).1, (c.nth s.2.2.1 n).1,
        (d.nth s.2.2.2.1 n).1, (e.nth s.2.2.2.2 n).1 with
      | some x, some y, some z, some w, some u => some (x, y, z, w, u)
      | _, _, _, _, _ => none,
     ((a.nth s.1 n).2, (b.nth s.2.1 n).2, (c.nth s.2.2.1 n).2,
      (d.nth s.2.2.2.1 n).2, (e.nth s.2.2.2.2 n).2))
  may_skip s curr :=
    (Nat.max (a.may_skip s.1 curr).1
      (Nat.max (b.may_skip s.2.1 curr).1
        (Nat.max (c.may_skip s.2.2.1 curr).1
          (Nat.max (d.may_skip s.2.2.2.1 curr).1 (e.may_skip s.2.2.2.2 curr).1))),
     ((a.may_skip s.1 curr).2, (b.may_skip s.2.1 curr).2, (c.may_skip s.2.2.1 curr).2,
      (d.may_skip s.2.2.2.1 curr).2, (e.may_skip s.2.2.2.2 curr).2))

/-- Modelled from the spec: the five-way bound, the minimum across components. -/
def tupleLen5 (la lb lc ld le : Nat) : Nat :=
  Nat.min (Nat.min (Nat.min (Nat.min la lb) lc) ld) le

/-- Modelled from the spec: the six-way tuple strategy (see `TupleJoin5`). -/
def TupleJoin6 {σ₁ σ₂ σ₃ σ₄ σ₅ σ₆ ι₁ ι₂ ι₃ ι₄ ι₅ ι₆ : Type} (a : JoinIter σ₁ ι₁)
    (b : JoinIter σ₂ ι₂) (c : JoinIter σ₃ ι₃) (d : JoinIter σ₄ ι₄) (e : JoinIter σ₅ ι₅)
    (f : JoinIter σ₆ ι₆) :
    JoinIter (σ₁ × σ₂ × σ₃ × σ₄ × σ₅ × σ₆) (ι₁ × ι₂ × ι₃ × ι₄ × ι₅ × ι₆) where
  next s :=
    (match (a.next s.1).1, (b.next s.2.1).1, (c.next s.2.2.1).1,
        (d.next s.2.2.2.1).1, (e.next s.2.2.2.2.1).1, (f.next s.2.2.2.2.2).1 with
      | some x, some y, some z, some w, some u, some t => some (x, y, z, w, u, t)
      | _, _, _, _, _, _ => none,
     ((a.next s.1).2, (b.next s.2.1).2, (c.next s.2.2.1).2,
      (d.next s.2.2.2.1).2, (e.next s.2.2.2.2.1).2, (f.next s.2.2.2.2.2).2))
  nth s n :=
    (match (a.nth s.1 n).1, (b.nth s.2.1 n).1, (c.nth s.2.2.1 n).1,
        (d.nth s.2.2.2.1 n).1, (e.nth s.2.2.2.2.1 n).1, (f.nth s.2.2.2.2.2 n).1 with
      | some x, some y, some z, some w, some u, some t => some (x, y, z, w, u, t)
      | _, _, _, _, _, _ => none,
     ((a.nth s.1 n).2, (b.nth s.2.1 n).2, (c.nth s.2.2.1 n).2,
      (d.nth s.2.2.2.1 n).2, (e.nth s.2.2.2.2.1 n).2, (f.nth s.2.2.2.2.2 n).2))
  may_skip s curr :=
    (Nat.max (a.may_skip s.1 curr).1
      (Nat.max (b.may_skip s.2.1 curr).1
        (Nat.max (c.may_skip s.2.2.1 curr).1
          (Nat.max (d.may_skip s.2.2.2.1 curr).1
            (Nat.max (e.may_skip s.2.2.2.2.1 curr).1 (f.may_skip s.2.2.2.2.2 curr).1)))),
     ((a.may_skip s.1 curr).2, (b.may_skip s.2.1 curr).2, (c.may_skip s.2.2.1 curr).2,
      (d.may_skip s.2.2.2.1 curr).2, (e.may_skip s.2.2.2.2.1 curr).2,
      (f.may_skip s.2.2.2.2.2 curr).2))

/-- Modelled from the spec: the six-way bound, the minimum across components. -/
def tupleLen6 (la lb lc ld le lf : Nat) : Nat :=
  Nat.min (Nat.min (Nat.min (Nat.min (Nat.min la lb) lc) ld) le) lf

/-- The first key at or after `p`, following the spec's `next_key_at_or_after`:
with keys in ascending order, the first key of the filtered tail. -/
def nextKeyAtOrAfter {α : Type} (s : SparseStorage α) (p : Nat) : Option Nat :=
  ((SparseStorage.keys s).filter (fun k => decide (p ≤ k))).head?

/-! Helper lemmas about the list primitives. -/

theorem listGet_drop {α : Type} (l : List α) (p i : Nat) :
    listGet (l.drop p) i = listGet l (p + i) := by
  induction p generalizing l with
  | zero => simp [Nat.zero_add]
  | succ p ih =>
    cases l with
    | nil => simp [listGet]
    | cons a t =>
      simp only [List.drop_succ_cons]
      rw [ih]
      have : p + 1 + i = (p + i) + 1 := by omega
      rw [this]
      rfl

theorem listGet_ge_length {α : Type} (l : List α) (j : Nat) (h : l.length ≤ j) :
    listGet l j = none := by
  induction l generalizing j with
  | nil => rfl
  | cons a t ih =>
    cases j with
    | zero => simp at h
    | succ j => exact ih j (by simpa using h)

theorem listGet_lt_length {α : Type} (l : List α) (j : Nat) (h : j < l.length) :
    ∃ a, listGet l j = some a := by
  induction l generalizing j with
  | nil => simp at h
  | cons a t ih =>
    cases j with
    | zero => exact ⟨a, rfl⟩
    | succ j => exact ih j (by simpa using h)

theorem listSet_length {α : Type} (l : List α) (i : Nat) (b : α) :
    (listSet l i b).length = l.length := by
  induction l generalizing i with
  | nil => rfl
  | cons a t ih =>
    cases i with
    | zero => rfl
    | succ i => simpa [listSet] using ih i

theorem listGet_set_self {α : Type} (l : List α) (i : Nat) (b : α) (h : i < l.length) :
    listGet (listSet l i b) i = some b := by
  induction l generalizing i with
  | nil => simp at h
  | cons a t ih =>
    cases i with
    | zero => rfl
    | succ i => exact ih i (by simpa using h)

theorem listGet_set_ne {α : Type} (l : List α) (i j : Nat) (b : α) (h : j ≠ i) :
    listGet (listSet l i b) j = listGet l j := by
  induction l generalizing i j with
  | nil => rfl
  | cons a t ih =>
    cases i with
    | zero =>
      cases j with
      | zero => exact absurd rfl h
      | succ j => rfl
    | succ i =>
      cases j with
      | zero => rfl
      | succ j => exact ih i j (fun e => h (by omega))

theorem listGet_append_left {α : Type} (l r : List α) (j : Nat) (h : j < l.length) :
    listGet (l ++ r) j = listGet l j := by
  induction l generalizing j with
  | nil => simp at h
  | cons a t ih =>
    cases j with
    | zero => rfl
    | succ j => exact ih j (by simpa using h)

theorem listGet_map {α β : Type} (f : α → β) (l : List α) (j : Nat) :
    listGet (l.map f) j = (listGet l j).map f := by
  induction l generalizing j with
  | nil => rfl
  | cons a t ih =>
    cases j with
    | zero => rfl
    | succ j => simpa [listGet] using ih j

theorem listGet_replicate_none {α : Type} (n j : Nat) :
    (listGet (List.replicate n (none : Option α)) j).join = none := by
  induction n generalizing j with
  | zero => rfl
  | succ n ih =>
    cases j with
    | zero => rfl
    | succ j => simpa [List.replicate, listGet] using ih j

/-! Dense storage operation lemmas. -/

theorem listGet_append_right {α : Type} (l r : List α) (i : Nat) :
    listGet (l ++ r) (l.length + i) = listGet r i := by
  induction l with
  | nil => simp [Nat.zero_add]
  | cons a t ih => simpa [listGet, Nat.succ_add] using ih

theorem storage_get_append_replicate {α : Type} (d : Storage α) (k j : Nat) :
    Storage.get (d ++ List.replicate k (none : Option α)) j = Storage.get d j := by
  unfold Storage.get
  rcases Nat.lt_or_ge j d.length with h | h
  · rw [listGet_append_left d _ j h]
  · rw [listGet_ge_length d j h]
    rcases Nat.lt_or_ge j (d.length + k) with h2 | h2
    · have : j - d.length < k := by omega
      have hj : j = d.length + (j - d.length) := by omega
      rw [hj, listGet_append_right]
      exact listGet_replicate_none k (j - d.length)
    · rw [listGet_ge_length _ j (by simp only [List.length_append, List.length_replicate]; omega)]

theorem storage_insert_ret {α : Type} (d : Storage α) (id : Nat) (v : α) :
    (Storage.insert d id v).1 = Storage.get d id := by
  unfold Storage.insert
  by_cases h : d.length ≤ id
  · simp only [h, if_pos]
    exact storage_get_append_replicate d _ id
  · simp only [h, if_neg, not_false_iff]
    rfl

theorem storage_insert_grown_length {α : Type} (d : Storage α) (id : Nat) :
    id < (if d.length ≤ id then d ++ List.replicate (id + 1 - d.length) (none : Option α) else d).length := by
  by_cases h : d.length ≤ id
  · simp only [h, if_pos, List.length_append, List.length_replicate]
    omega
  · simp only [h, if_neg, not_false_iff]
    omega

theorem storage_insert_get_self {α : Type} (d : Storage α) (id : Nat) (v : α) :
    Storage.get (Storage.insert d id v).2 id = some v := by
  unfold Storage.insert Storage.get
  rw [listGet_set_self _ id _ (storage_insert_grown_length d id)]
  rfl

theorem storage_insert_get_ne {α : Type} (d : Storage α) (id j : Nat) (v : α) (h : j ≠ id) :
    Storage.get (Storage.insert d id v).2 j = Storage.get d j := by
  unfold Storage.insert
  show Storage.get (listSet _ id (some v)) j = _
  unfold Storage.get
  rw [listGet_set_ne _ id j _ h]
  by_cases hg : d.length ≤ id
  · simp only [hg, if_pos]
    exact storage_get_append_replicate d _ j
  · simp only [hg, if_neg, not_false_iff]

theorem storage_remove_ret {α : Type} (d : Storage α) (id : Nat) :
    (Storage.remove d id).1 = Storage.get d id := by
  unfold Storage.remove
  by_cases h : id < d.length
  · simp [h]; rfl
  · simp only [h, if_neg, not_false_iff]
    unfold Storage.get
    rw [listGet_ge_length d id (by omega)]
    rfl

theorem storage_remove_get_self {α : Type} (d : Storage α) (id : Nat) :
    Storage.get (Storage.remove d id).2 id = none := by
  unfold Storage.remove
  by_cases h : id < d.length
  · simp only [h, if_pos]
    unfold Storage.get
    rw [listGet_set_self _ id _ h]
    rfl
  · simp only [h, if_neg, not_false_iff]
    unfold Storage.get
    rw [listGet_ge_length d id (by omega)]
    rfl

theorem storage_remove_get_ne {α : Type} (d : Storage α) (id j : Nat) (h : j ≠ id) :
    Storage.get (Storage.remove d id).2 j = Storage.get d j := by
  unfold Storage.remove
  by_cases hl : id < d.length
  · simp only [hl, if_pos]
    unfold Storage.get
    rw [listGet_set_ne _ id j _ h]
  · simp only [hl, if_neg, not_false_iff]

theorem storage_clear_get {α : Type} (d : Storage α) (j : Nat) :
    Storage.get (Storage.clear d) j = none := by
  unfold Storage.clear Storage.get
  rw [listGet_map]
  cases listGet d j <;> rfl

/-! Sparse storage operation lemmas. -/

theorem sget_cons {α : Type} (k : Nat) (v : α) (t : SparseStorage α) (j : Nat) :
    SparseStorage.get ((k, v) :: t) j = if k = j then some v else SparseStorage.get t j := rfl

theorem sins_cons {α : Type} (k' : Nat) (v' : α) (t : SparseStorage α) (k : Nat) (v : α) :
    SparseStorage.insert ((k', v') :: t) k v =
      if k < k' then (none, (k, v) :: (k', v') :: t)
      else if k = k' then (some v', (k, v) :: t)
      else ((SparseStorage.insert t k v).1, (k', v') :: (SparseStorage.insert t k v).2) := rfl

theorem srem_cons {α : Type} (k' : Nat) (v' : α) (t : SparseStorage α) (k : Nat) :
    SparseStorage.remove ((k', v') :: t) k =
      if k = k' then (some v', t)
      else if k < k' then (none, (k', v') :: t)
      else ((SparseStorage.remove t k).1, (k', v') :: (SparseStorage.remove t k).2) := rfl

theorem sparse_get_of_all_gt {α : Type} (t : SparseStorage α) (id : Nat)
    (h : ∀ e ∈ t, id < e.1) : SparseStorage.get t id = none := by
  induction t with
  | nil => rfl
  | cons e t ih =>
    rcases e with ⟨k, v⟩
    have hk : k ≠ id := by have := h (k, v) (List.mem_cons_self _ _); simp at this; omega
    rw [sget_cons, if_neg hk]
    exact ih (fun e he => h e (List.mem_cons_of_mem _ he))

theorem sparse_insert_mem {α : Type} (t : SparseStorage α) (id : Nat) (v : α) :
    ∀ e ∈ (SparseStorage.insert t id v).2, e.1 = id ∨ e ∈ t := by
  induction t with
  | nil =>
    intro e he
    simp only [SparseStorage.insert, List.mem_singleton] at he
    simp [he]
  | cons a t ih =>
    intro e he
    rcases a with ⟨k', v'⟩
    rw [sins_cons] at he
    by_cases h1 : id < k'
    · rw [if_pos h1] at he
      rcases List.mem_cons.mp he with he | he
      · simp [he]
      · exact Or.inr he
    · rw [if_neg h1] at he
      by_cases h2 : id = k'
      · rw [if_pos h2] at he
        rcases List.mem_cons.mp he with he | he
        · simp [he]
        · exact Or.inr (List.mem_cons_of_mem _ he)
      · rw [if_neg h2] at he
        rcases List.mem_cons.mp he with he | he
        · exact Or.inr (by simp [he])
        · rcases ih e he with h | h
          · exact Or.inl h
          · exact Or.inr (List.mem_cons_of_mem _ h)

theorem sparse_remove_mem {α : Type} (t : SparseStorage α) (id : Nat) :
    ∀ e ∈ (SparseStorage.remove t id).2, e ∈ t := by
  induction t with
  | nil => intro e he; exact absurd he (by simp [SparseStorage.remove])
  | cons a t ih =>
    intro e he
    rcases a with ⟨k', v'⟩
    rw [srem_cons] at he
    by_cases h1 : id = k'
    · rw [if_pos h1] at he
      exact List.mem_cons_of_mem _ he
    · rw [if_neg h1] at he
      by_cases h2 : id < k'
      · rw [if_pos h2] at he
        exact he
      · rw [if_neg h2] at he
        rcases List.mem_cons.mp he with he | he
        · simp [he]
        · exact List.mem_cons_of_mem _ (ih e he)

theorem sparse_sorted_insert {α : Type} (s : SparseStorage α) (id : Nat) (v : α)
    (hs : SparseSorted s) : SparseSorted (SparseStorage.insert s id v).2 := by
  induction s with
  | nil => simp [SparseStorage.insert, SparseSorted]
  | cons a t ih =>
    rcases a with ⟨k', v'⟩
    rcases List.pairwise_cons.mp hs with ⟨hall, htail⟩
    rw [sins_cons]
    by_cases h1 : id < k'
    · rw [if_pos h1]
      refine List.pairwise_cons.mpr ⟨?_, List.pairwise_cons.mpr ⟨hall, htail⟩⟩
      intro e he
      rcases List.mem_cons.mp he with he | he
      · simp [he]; omega
      · have := hall e he
        show id < e.1
        omega
    · rw [if_neg h1]
      by_cases h2 : id = k'
      · rw [if_pos h2]
        refine List.pairwise_cons.mpr ⟨?_, htail⟩
        intro e he
        have := hall e he
        show id < e.1
        omega
      · rw [if_neg h2]
        refine List.pairwise_cons.mpr ⟨?_, ih htail⟩
        intro e he
        rcases sparse_insert_mem t id v e he with h | h
        · show k' < e.1
          omega
        · exact hall e h

theorem sparse_sorted_remove {α : Type} (s : SparseStorage α) (id : Nat)
    (hs : SparseSorted s) : SparseSorted (SparseStorage.remove s id).2 := by
  induction s with
  | nil => simp [SparseStorage.remove, SparseSorted]
  | cons a t ih =>
    rcases a with ⟨k', v'⟩
    rcases List.pairwise_cons.mp hs with ⟨hall, htail⟩
    rw [srem_cons]
    by_cases h1 : id = k'
    · rw [if_pos h1]
      exact htail
    · rw [if_neg h1]
      by_cases h2 : id < k'
      · rw [if_pos h2]
        exact hs
      · rw [if_neg h2]
        refine List.pairwise_cons.mpr ⟨?_, ih htail⟩
        intro e he
        exact hall e (sparse_remove_mem t id e he)

theorem sparse_insert_get_self {α : Type} (s : SparseStorage α) (id : Nat) (v : α) :
    SparseStorage.get (SparseStorage.insert s id v).2 id = some v := by
  induction s with
  | nil => simp [SparseStorage.insert, sget_cons]
  | cons a t ih =>
    rcases a with ⟨k', v'⟩
    rw [sins_cons]
    by_cases h1 : id < k'
    · rw [if_pos h1]
      simp [sget_cons]
    · rw [if_neg h1]
      by_cases h2 : id = k'
      · rw [if_pos h2]
        simp [sget_cons]
      · rw [if_neg h2]
        rw [show ((SparseStorage.insert t id v).1, (k', v') :: (SparseStorage.insert t id v).2).2
            = (k', v') :: (SparseStorage.insert t id v).2 from rfl]
        rw [sget_cons, if_neg (fun e : k' = id => h2 e.symm)]
        exact ih

theorem sparse_insert_get_ne {α : Type} (s : SparseStorage α) (id j : Nat) (v : α)
    (h : j ≠ id) :
    SparseStorage.get (SparseStorage.insert s id v).2 j = SparseStorage.get s j := by
  induction s with
  | nil =>
    simp only [SparseStorage.insert]
    rw [sget_cons, if_neg (fun e : id = j => h e.symm)]
  | cons a t ih =>
    rcases a with ⟨k', v'⟩
    rw [sins_cons]
    by_cases h1 : id < k'
    · rw [if_pos h1]
      rw [show ((none : Option α), (id, v) :: (k', v') :: t).2 = (id, v) :: (k', v') :: t from rfl]
      rw [sget_cons, if_neg (fun e : id = j => h e.symm)]
    · rw [if_neg h1]
      by_cases h2 : id = k'
      · rw [if_pos h2]
        rw [show (some v', (id, v) :: t).2 = (id, v) :: t from rfl]
        rw [sget_cons, if_neg (fun e : id = j => h e.symm), sget_cons,
          if_neg (fun e : k' = j => h (by omega))]
      · rw [if_neg h2]
        rw [show ((SparseStorage.insert t id v).1, (k', v') :: (SparseStorage.insert t id v).2).2
            = (k', v') :: (SparseStorage.insert t id v).2 from rfl]
        rw [sget_cons, sget_cons]
        by_cases h3 : k' = j
        · rw [if_pos h3, if_pos h3]
        · rw [if_neg h3, if_neg h3]
          exact ih

theorem sparse_insert_ret {α : Type} (s : SparseStorage α) (id : Nat) (v : α)
    (hs : SparseSorted s) : (SparseStorage.insert s id v).1 = SparseStorage.get s id := by
  induction s with
  | nil => rfl
  | cons a t ih =>
    rcases a with ⟨k', v'⟩
    rcases List.pairwise_cons.mp hs with ⟨hall, htail⟩
    rw [sins_cons, sget_cons]
    by_cases h1 : id < k'
    · rw [if_pos h1, if_neg (fun e : k' = id => by omega)]
      exact (sparse_get_of_all_gt t id (fun e he => by have := hall e he; omega)).symm
    · rw [if_neg h1]
      by_cases h2 : id = k'
      · rw [if_pos h2, if_pos h2.symm]
      · rw [if_neg h2, if_neg (fun e : k' = id => h2 e.symm)]
        exact ih htail

theorem sparse_remove_get_self {α : Type} (s : SparseStorage α) (id : Nat)
    (hs : SparseSorted s) : SparseStorage.get (SparseStorage.remove s id).2 id = none := by
  induction s with
  | nil => rfl
  | cons a t ih =>
    rcases a with ⟨k', v'⟩
    rcases List.pairwise_cons.mp hs with ⟨hall, htail⟩
    rw [srem_cons]
    by_cases h1 : id = k'
    · rw [if_pos h1]
      exact h1 ▸ sparse_get_of_all_gt t k' (fun e he => hall e he)
    · rw [if_neg h1]
      by_cases h2 : id < k'
      · rw [if_pos h2]
        rw [show ((none : Option α), (k', v') :: t).2 = (k', v') :: t from rfl]
        rw [sget_cons, if_neg (fun e : k' = id => h1 e.symm)]
        exact sparse_get_of_all_gt t id (fun e he => by have := hall e he; omega)
      · rw [if_neg h2]
        rw [show ((SparseStorage.remove t id).1, (k', v') :: (SparseStorage.remove t id).2).2
            = (k', v') :: (SparseStorage.remove t id).2 from rfl]
        rw [sget_cons, if_neg (fun e : k' = id => h1 e.symm)]
        exact ih htail

theorem sparse_remove_get_ne {α : Type} (s : SparseStorage α) (id j : Nat) (h : j ≠ id) :
    SparseStorage.get (SparseStorage.remove s id).2 j = SparseStorage.get s j := by
  induction s with
  | nil => rfl
  | cons a t ih =>
    rcases a with ⟨k', v'⟩
    rw [srem_cons]
    by_cases h1 : id = k'
    · rw [if_pos h1, sget_cons, if_neg (fun e : k' = j => h (by omega))]
    · rw [if_neg h1]
      by_cases h2 : id < k'
      · rw [if_pos h2]
      · rw [if_neg h2]
        rw [show ((SparseStorage.remove t id).1, (k', v') :: (SparseStorage.remove t id).2).2
            = (k', v') :: (SparseStorage.remove t id).2 from rfl]
        rw [sget_cons, sget_cons]
        by_cases h3 : k' = j
        · rw [if_pos h3, if_pos h3]
        · rw [if_neg h3, if_neg h3]
          exact ih

theorem sparse_remove_ret {α : Type} (s : SparseStorage α) (id : Nat)
    (hs : SparseSorted s) : (SparseStorage.remove s id).1 = SparseStorage.get s id := by
  induction s with
  | nil => rfl
  | cons a t ih =>
    rcases a with ⟨k', v'⟩
    rcases List.pairwise_cons.mp hs with ⟨hall, htail⟩
    rw [srem_cons, sget_cons]
    by_cases h1 : id = k'
    · rw [if_pos h1, if_pos h1.symm]
    · rw [if_neg h1, if_neg (fun e : k' = id => h1 e.symm)]
      by_cases h2 : id < k'
      · rw [if_pos h2]
        exact (sparse_get_of_all_gt t id (fun e he => by have := hall e he; omega)).symm
      · rw [if_neg h2]
        exact ih htail

/-! Lemmas about skip hints and bounds. -/

theorem leadingNones_spec {α : Type} :
    ∀ (l : List (Option α)) (i : Nat), i < leadingNones l → listGet l i = some none := by
  intro l
  induction l with
  | nil => intro i h; simp [leadingNones] at h
  | cons o t ih =>
    intro i h
    cases o with
    | none =>
      cases i with
      | zero => rfl
      | succ i =>
        refine ih i ?_
        have he : leadingNones (none :: t) = leadingNones t + 1 := by
          simp [leadingNones, List.takeWhile_cons]
        omega
    | some a =>
      exfalso
      have he : leadingNones (some a :: t) = 0 := by
        simp [leadingNones, List.takeWhile_cons]
      omega

theorem rangeNext_cons {α : Type} (k : Nat) (v : α) (t : SparseStorage α) (p : Nat) :
    rangeNext ((k, v) :: t) p = if p ≤ k then some (k, v) else rangeNext t p := rfl

theorem rangeNext_key {α : Type} (l : SparseStorage α) (p : Nat) :
    (rangeNext l p).map Prod.fst = nextKeyAtOrAfter l p := by
  induction l with
  | nil => rfl
  | cons a t ih =>
    rcases a with ⟨k, v⟩
    rw [rangeNext_cons]
    unfold nextKeyAtOrAfter
    by_cases hp : p ≤ k
    · rw [if_pos hp]
      show some k = (List.filter _ (k :: SparseStorage.keys t)).head?
      rw [List.filter_cons]
      simp [hp]
    · rw [if_neg hp]
      show (rangeNext t p).map Prod.fst = (List.filter _ (k :: SparseStorage.keys t)).head?
      rw [List.filter_cons]
      simp only [decide_eq_true_eq, hp, if_neg, not_false_iff, ite_false]
      exact ih

theorem foldr_max_head_le {α : Type} (b : Nat × α) (t2 : SparseStorage α) :
    b.1 ≤ List.foldr Nat.max 0 (SparseStorage.keys (b :: t2)) := by
  show b.1 ≤ Nat.max b.1 (List.foldr Nat.max 0 (SparseStorage.keys t2))
  exact Nat.le_max_left _ _

theorem sorted_lastKey {α : Type} (l : SparseStorage α) (hs : SparseSorted l) :
    l ≠ [] → lastKey l = some (List.foldr Nat.max 0 (SparseStorage.keys l)) := by
  induction l with
  | nil => intro h; exact absurd rfl h
  | cons a t ih =>
    intro _
    rcases a with ⟨k, v⟩
    rcases List.pairwise_cons.mp hs with ⟨hall, htail⟩
    cases t with
    | nil =>
      show some k = some (Nat.max k 0)
      exact congrArg some (Nat.max_zero ..).symm
    | cons b t2 =>
      have hlk : lastKey ((k, v) :: b :: t2) = lastKey (b :: t2) := by
        show (k :: SparseStorage.keys (b :: t2)).getLast? = (SparseStorage.keys (b :: t2)).getLast?
        show (k :: b.1 :: SparseStorage.keys t2).getLast? = (b.1 :: SparseStorage.keys t2).getLast?
        exact List.getLast?_cons_cons
      rw [hlk, ih htail (by simp)]
      have h1 : k < b.1 := hall b (List.mem_cons_self _ _)
      have h2 : b.1 ≤ List.foldr Nat.max 0 (SparseStorage.keys (b :: t2)) :=
        foldr_max_head_le b t2
      have h3 : List.foldr Nat.max 0 (SparseStorage.keys ((k, v) :: b :: t2)) =
          Nat.max k (List.foldr Nat.max 0 (SparseStorage.keys (b :: t2))) := rfl
      rw [h3]
      exact congrArg some (Nat.max_eq_right (show k ≤ _ by omega)).symm

/-! Driver equations and bisimulation lemmas. -/

theorem nat_max_zero_right (n : Nat) : Nat.max n 0 = n := Nat.max_zero ..

theorem nat_max_self_eq (n : Nat) : Nat.max n n = n := Nat.max_self ..

theorem nat_min_assoc (a b c : Nat) : Nat.min (Nat.min a b) c = Nat.min a (Nat.min b c) :=
  Nat.min_assoc ..

theorem joinedLoop_succ {σ ι : Type} (it : JoinIter σ ι) (len fuel : Nat) (s : σ) (pos : Nat) :
    joinedLoop it len (fuel + 1) s pos =
      if pos < len then
        match (it.nth (it.may_skip s pos).2 (it.may_skip s pos).1).1 with
        | some v =>
          some (v, (it.nth (it.may_skip s pos).2 (it.may_skip s pos).1).2,
            pos + (it.may_skip s pos).1)
        | none =>
          joinedLoop it len fuel (it.nth (it.may_skip s pos).2 (it.may_skip s pos).1).2
            (pos + (it.may_skip s pos).1 + 1)
      else none := rfl

theorem tj2_may_skip {σ₁ σ₂ ι₁ ι₂ : Type} (a : JoinIter σ₁ ι₁) (b : JoinIter σ₂ ι₂)
    (sa : σ₁) (sb : σ₂) (curr : Nat) :
    (TupleJoin2 a b).may_skip (sa, sb) curr =
      (Nat.max (a.may_skip sa curr).1 (b.may_skip sb curr).1,
       ((a.may_skip sa curr).2, (b.may_skip sb curr).2)) := rfl

theorem tj2_nth {σ₁ σ₂ ι₁ ι₂ : Type} (a : JoinIter σ₁ ι₁) (b : JoinIter σ₂ ι₂)
    (sa : σ₁) (sb : σ₂) (n : Nat) :
    (TupleJoin2 a b).nth (sa, sb) n =
      (match (a.nth sa n).1, (b.nth sb n).1 with
        | some x, some y => some (x, y)
        | _, _ => none,
       ((a.nth sa n).2, (b.nth sb n).2)) := rfl

theorem maybe_may_skip {σ ι : Type} (it : JoinIter σ ι) (sb : σ) (curr : Nat) :
    (Maybe it).may_skip sb curr = (0, sb) := rfl

theorem maybe_nth {σ ι : Type} (it : JoinIter σ ι) (sb : σ) (n : Nat) :
    (Maybe it).nth sb n = (some (it.nth sb n).1, (it.nth sb n).2) := rfl

theorem maybe_pair_loop {σa σb ιa ιb : Type} (A : JoinIter σa ιa) (B : JoinIter σb ιb)
    (len : Nat) : ∀ (fuel pos : Nat) (sa : σa) (sb : σb),
    (joinedLoop (TupleJoin2 A (Maybe B)) len fuel (sa, sb) pos = none
        ∧ joinedLoop A len fuel sa pos = none)
    ∨ (∃ x y sa1 sb1 pos1,
        joinedLoop (TupleJoin2 A (Maybe B)) len fuel (sa, sb) pos = some ((x, y), (sa1, sb1), pos1)
        ∧ joinedLoop A len fuel sa pos = some (x, sa1, pos1)) := by
  intro fuel
  induction fuel with
  | zero => intro pos sa sb; exact Or.inl ⟨rfl, rfl⟩
  | succ fuel ih =>
    intro pos sa sb
    by_cases h : pos < len
    · rw [joinedLoop_succ, joinedLoop_succ, if_pos h, if_pos h]
      rw [tj2_may_skip, maybe_may_skip]
      rw [show ((Nat.max (A.may_skip sa pos).1 0, ((A.may_skip sa pos).2, sb)) :
          Nat × σa × σb).1 = Nat.max (A.may_skip sa pos).1 0 from rfl]
      rw [show ((Nat.max (A.may_skip sa pos).1 0, ((A.may_skip sa pos).2, sb)) :
          Nat × σa × σb).2 = ((A.may_skip sa pos).2, sb) from rfl]
      rw [nat_max_zero_right]
      rw [tj2_nth, maybe_nth]
      cases hx : (A.nth (A.may_skip sa pos).2 (A.may_skip sa pos).1).1 with
      | some xv =>
        refine Or.inr ⟨xv, (B.nth sb (A.may_skip sa pos).1).1,
          (A.nth (A.may_skip sa pos).2 (A.may_skip sa pos).1).2,
          (B.nth sb (A.may_skip sa pos).1).2, pos + (A.may_skip sa pos).1, ?_, ?_⟩
        · simp only [hx]
        · simp only [hx]
      | none =>
        simp only [hx]
        exact ih (pos + (A.may_skip sa pos).1 + 1)
          (A.nth (A.may_skip sa pos).2 (A.may_skip sa pos).1).2
          (B.nth sb (A.may_skip sa pos).1).2
    · rw [joinedLoop_succ, joinedLoop_succ, if_neg h, if_neg h]
      exact Or.inl ⟨rfl, rfl⟩

theorem iter_may_skip {α : Type} (s : Storage α × Nat) (curr : Nat) :
    (Iter α).may_skip s curr = (leadingNones (s.1.drop s.2), s) := rfl

theorem iter_nth_eq {α : Type} (s : Storage α × Nat) (n : Nat) :
    (Iter α).nth s n = Iter.nth s n := rfl

theorem iter_nth_storage {α : Type} (s : Storage α × Nat) (n : Nat) :
    (Iter.nth s n).2.1 = s.1 := by
  unfold Iter.nth
  by_cases h : n < (s.1.drop s.2).length
  · rw [if_pos h]
  · rw [if_neg h]

theorem neg_may_skip {α : Type} (s : Storage α × Nat) (curr : Nat) :
    (NegatedIter α).may_skip s curr = (leadingSomes (s.1.drop s.2), s) := rfl

theorem neg_nth {α : Type} (s : Storage α × Nat) (n : Nat) :
    (NegatedIter α).nth s n =
      (match (Iter.nth s n).1 with
        | some _ => none
        | none => some (),
       (Iter.nth s n).2) := rfl

theorem sparse_may_skip {α : Type} (s : SparseStorage α × Nat) (curr : Nat) :
    (SparseIter α).may_skip s curr =
      (match rangeNext s.1 curr with
        | some e => e.1 - curr
        | none => USIZE_MAX,
       (s.1, curr)) := rfl

theorem sparse_nth {α : Type} (s : SparseStorage α × Nat) (n : Nat) :
    (SparseIter α).nth s n = (SparseStorage.get s.1 (s.2 + n), (s.1, s.2 + n + 1)) := rfl

theorem negsparse_may_skip {α : Type} (s : SparseStorage α × Nat) (curr : Nat) :
    (NegatedSparseIter α).may_skip s curr = (0, s) := rfl

theorem negsparse_nth {α : Type} (s : SparseStorage α × Nat) (n : Nat) :
    (NegatedSparseIter α).nth s n =
      (match SparseStorage.get s.1 (s.2 + n) with
        | some _ => none
        | none => some (),
       (s.1, s.2 + n + 1)) := rfl

theorem dense_neg_loop {α : Type} (d : Storage α) (len : Nat) : ∀ (fuel pos c : Nat),
    joinedLoop (TupleJoin2 (Iter α) (NegatedIter α)) len fuel ((d, c), (d, c)) pos = none := by
  intro fuel
  induction fuel with
  | zero => intro pos c; rfl
  | succ fuel ih =>
    intro pos c
    by_cases h : pos < len
    · rw [joinedLoop_succ, if_pos h, tj2_may_skip, iter_may_skip, neg_may_skip]
      rcases hni : Iter.nth (d, c)
          (Nat.max (leadingNones (((d, c).1).drop ((d, c).2)))
            (leadingSomes (((d, c).1).drop ((d, c).2)))) with ⟨v1, d1, c1⟩
      have hd1 : d1 = d := by
        have := iter_nth_storage (d, c)
          (Nat.max (leadingNones (((d, c).1).drop ((d, c).2)))
            (leadingSomes (((d, c).1).drop ((d, c).2))))
        rw [hni] at this
        exact this
      rw [hd1] at hni
      rw [show ((leadingNones (((d, c).1).drop ((d, c).2)), (d, c)) : Nat × Storage α × Nat).1
          = leadingNones (((d, c).1).drop ((d, c).2)) from rfl]
      rw [tj2_nth, iter_nth_eq, neg_nth, hni]
      cases v1 with
      | some xv => exact ih _ c1
      | none => exact ih _ c1
    · rw [joinedLoop_succ, if_neg h]

theorem sparse_neg_loop {α : Type} (m : SparseStorage α) (len : Nat) : ∀ (fuel pos q1 : Nat),
    joinedLoop (TupleJoin2 (SparseIter α) (NegatedSparseIter α)) len fuel
      ((m, q1), (m, pos)) pos = none := by
  intro fuel
  induction fuel with
  | zero => intro pos q1; rfl
  | succ fuel ih =>
    intro pos q1
    by_cases h : pos < len
    · rw [joinedLoop_succ, if_pos h]
      dsimp only [tj2_may_skip, sparse_may_skip, negsparse_may_skip, tj2_nth, sparse_nth,
        negsparse_nth]
      rw [nat_max_zero_right]
      cases hg : SparseStorage.get m
          (pos + (match rangeNext m pos with | some e => e.1 - pos | none => USIZE_MAX)) with
      | some xv => exact ih _ _
      | none => exact ih _ _
    · rw [joinedLoop_succ, if_neg h]

theorem dense_negneg_loop {α : Type} (d : Storage α) (len : Nat) : ∀ (fuel pos c : Nat),
    (joinedLoop (TupleJoin2 (NegatedIter α) (NegatedIter α)) len fuel ((d, c), (d, c)) pos = none
      ∧ joinedLoop (NegatedIter α) len fuel (d, c) pos = none)
    ∨ (∃ c1 pos1,
        joinedLoop (TupleJoin2 (NegatedIter α) (NegatedIter α)) len fuel ((d, c), (d, c)) pos
          = some (((), ()), ((d, c1), (d, c1)), pos1)
        ∧ joinedLoop (NegatedIter α) len fuel (d, c) pos = some ((), (d, c1), pos1)) := by
  intro fuel
  induction fuel with
  | zero => intro pos c; exact Or.inl ⟨rfl, rfl⟩
  | succ fuel ih =>
    intro pos c
    by_cases h : pos < len
    · rw [joinedLoop_succ, joinedLoop_succ, if_pos h, if_pos h]
      dsimp only [tj2_may_skip, neg_may_skip, tj2_nth, neg_nth]
      rw [nat_max_self_eq]
      rcases hni : Iter.nth (d, c) (leadingSomes (d.drop c)) with ⟨v1, d1, c1⟩
      have hd1 : d1 = d := by
        have := iter_nth_storage (d, c) (leadingSomes (d.drop c))
        rw [hni] at this
        exact this
      rw [hd1]
      cases v1 with
      | some xv => exact ih _ c1
      | none =>
        exact Or.inr ⟨c1, pos + leadingSomes (d.drop c), rfl, rfl⟩
    · rw [joinedLoop_succ, joinedLoop_succ, if_neg h, if_neg h]
      exact Or.inl ⟨rfl, rfl⟩

theorem sparse_negneg_loop {α : Type} (m : SparseStorage α) (len : Nat) : ∀ (fuel pos q : Nat),
    (joinedLoop (TupleJoin2 (NegatedSparseIter α) (NegatedSparseIter α)) len fuel
        ((m, q), (m, q)) pos = none
      ∧ joinedLoop (NegatedSparseIter α) len fuel (m, q) pos = none)
    ∨ (∃ q1 pos1,
        joinedLoop (TupleJoin2 (NegatedSparseIter α) (NegatedSparseIter α)) len fuel
          ((m, q), (m, q)) pos = some (((), ()), ((m, q1), (m, q1)), pos1)
        ∧ joinedLoop (NegatedSparseIter α) len fuel (m, q) pos = some ((), (m, q1), pos1)) := by
  intro fuel
  induction fuel with
  | zero => intro pos q; exact Or.inl ⟨rfl, rfl⟩
  | succ fuel ih =>
    intro pos q
    by_cases h : pos < len
    · rw [joinedLoop_succ, joinedLoop_succ, if_pos h, if_pos h]
      dsimp only [tj2_may_skip, negsparse_may_skip, tj2_nth, negsparse_nth]
      rw [nat_max_self_eq]
      cases hg : SparseStorage.get m (q + 0) with
      | some xv => exact ih _ _
      | none => exact Or.inr ⟨q + 0 + 1, pos + 0, rfl, rfl⟩
    · rw [joinedLoop_succ, joinedLoop_succ, if_neg h, if_neg h]
      exact Or.inl ⟨rfl, rfl⟩

theorem joinedNext_eq {σ ι : Type} (it : JoinIter σ ι) (len : Nat) (s : σ) (pos : Nat) :
    joinedNext it len s pos = joinedLoop it len (len - pos) s pos := rfl

theorem joinedRun_succ {σ ι : Type} (it : JoinIter σ ι) (len fuel : Nat) (s : σ) (pos : Nat) :
    joinedRun it len (fuel + 1) s pos =
      match joinedNext it len s pos with
      | none => []
      | some (v, s1, pos1) => (v, pos1) :: joinedRun it len fuel s1 pos1 := rfl

theorem dense_neg_run {α : Type} (d : Storage α) (len fuel pos c : Nat) :
    joinedRun (TupleJoin2 (Iter α) (NegatedIter α)) len fuel ((d, c), (d, c)) pos = [] := by
  cases fuel with
  | zero => rfl
  | succ fuel =>
    rw [joinedRun_succ, joinedNext_eq, dense_neg_loop d len (len - pos) pos c]

theorem sparse_neg_run {α : Type} (m : SparseStorage α) (len fuel pos q1 : Nat) :
    joinedRun (TupleJoin2 (SparseIter α) (NegatedSparseIter α)) len fuel
      ((m, q1), (m, pos)) pos = [] := by
  cases fuel with
  | zero => rfl
  | succ fuel =>
    rw [joinedRun_succ, joinedNext_eq, sparse_neg_loop m len (len - pos) pos q1]

theorem dense_negneg_run {α : Type} (d : Storage α) (len : Nat) : ∀ (fuel pos c : Nat),
    (joinedRun (TupleJoin2 (NegatedIter α) (NegatedIter α)) len fuel ((d, c), (d, c)) pos).map
        Prod.snd
      = (joinedRun (NegatedIter α) len fuel (d, c) pos).map Prod.snd := by
  intro fuel
  induction fuel with
  | zero => intro pos c; rfl
  | succ fuel ih =>
    intro pos c
    rw [joinedRun_succ, joinedRun_succ, joinedNext_eq, joinedNext_eq]
    rcases dense_negneg_loop d len (len - pos) pos c with ⟨h1, h2⟩ | ⟨c1, pos1, h1, h2⟩
    · rw [h1, h2]
      rfl
    · rw [h1, h2]
      dsimp only [List.map]
      rw [ih pos1 c1]

theorem sparse_negneg_run {α : Type} (m : SparseStorage α) (len : Nat) : ∀ (fuel pos q : Nat),
    (joinedRun (TupleJoin2 (NegatedSparseIter α) (NegatedSparseIter α)) len fuel
        ((m, q), (m, q)) pos).map Prod.snd
      = (joinedRun (NegatedSparseIter α) len fuel (m, q) pos).map Prod.snd := by
  intro fuel
  induction fuel with
  | zero => intro pos q; rfl
  | succ fuel ih =>
    intro pos q
    rw [joinedRun_succ, joinedRun_succ, joinedNext_eq, joinedNext_eq]
    rcases sparse_negneg_loop m len (len - pos) pos q with ⟨h1, h2⟩ | ⟨q1, pos1, h1, h2⟩
    · rw [h1, h2]
      rfl
    · rw [h1, h2]
      dsimp only [List.map]
      rw [ih pos1 q1]

/-! Claim theorems. -/

/-- C1: the claim says every join over a non-empty collection of storages sharing an
identifier yields exactly the common identifiers, in strictly ascending order, and
nothing else.  The code violates this for sparse storages: the join bound omits the
`+ 1`, so the sparse storage holding only key `0` (value `7`) joins to the empty
sequence although `get 0 = some 7`; and because the driver never advances `pos`
after a yield while `SparseIter::may_skip` rewinds to `pos`, the sparse storage
`{1 -> 10, 3 -> 20}` yields the match at position 1 over and over instead of
`10` then `20`. -/
theorem c1_sparse_join_violation :
    SparseStorage.get ([(0, 7)] : SparseStorage Nat) 0 = some 7
    ∧ (∀ fuel : Nat,
        joinedItems (SparseIter Nat) (sparseLen ([(0, 7)] : SparseStorage Nat)) fuel
          (([(0, 7)] : SparseStorage Nat), 0) 0 = [])
    ∧ joinedRun (SparseIter Nat) (sparseLen ([(1, 10), (3, 20)] : SparseStorage Nat)) 3
        (([(1, 10), (3, 20)] : SparseStorage Nat), 0) 0 = [(10, 1), (10, 1), (10, 1)] := by
  refine ⟨rfl, ?_, rfl⟩
  intro fuel
  cases fuel <;> rfl

/-- C9: the claim says the driver never adds a `usize::MAX` skip hint to a position
below the join's bound.  For the sparse drain over `{1 -> 0}` the bound is 2; after
the one yield the driver is still at position 1 < 2, the drained map is empty, the
hint is `usize::MAX`, and `1 + usize::MAX` exceeds `usize::MAX`: the addition
overflows `usize`. -/
theorem c9_sparse_drain_overflow :
    sparseDrainLen ([(1, 0)] : SparseStorage Nat) = 2
    ∧ joinedNext (SparseDrain Nat) 2 (([(1, 0)] : SparseStorage Nat), 0) 0
        = some (0, (([] : SparseStorage Nat), 2), 1)
    ∧ (1 : Nat) < 2
    ∧ ((SparseDrain Nat).may_skip (([] : SparseStorage Nat), 2) 1).1 = USIZE_MAX
    ∧ USIZE_MAX < 1 + USIZE_MAX :=
  ⟨rfl, rfl, by decide, rfl, by rw [Nat.add_comm]; exact Nat.lt_succ_self USIZE_MAX⟩

/-- C3 counterexample: the claim says the upper bound a sparse storage's join
strategy reports is the greatest stored key plus one (`sparseLenSpec`), but for
the storage `{0 -> 7}` the code (`sparseLen`) reports 0, not 1. -/
theorem c3_bound_counterexample :
    sparseLen ([(0, 7)] : SparseStorage Nat) = 0
    ∧ sparseLenSpec ([(0, 7)] : SparseStorage Nat) = 1
    ∧ sparseLen ([(0, 7)] : SparseStorage Nat) ≠ sparseLenSpec ([(0, 7)] : SparseStorage Nat) :=
  ⟨rfl, rfl, by decide⟩

/-- C3 amended: a shared sparse storage reference reports the greatest stored key
(which coincides with 0 for the empty storage); only the sparse drain reports the
greatest key plus one, or zero when empty; a dense storage reports the array
length. -/
theorem c3_bound_amended {α : Type} (l : SparseStorage α) (hs : SparseSorted l)
    (d : Storage α) :
    sparseLen l = List.foldr Nat.max 0 (SparseStorage.keys l)
    ∧ (l = [] → sparseDrainLen l = 0)
    ∧ (l ≠ [] → sparseDrainLen l = List.foldr Nat.max 0 (SparseStorage.keys l) + 1)
    ∧ denseLen d = d.length := by
  refine ⟨?_, ?_, ?_, rfl⟩
  · rcases l with _ | ⟨a, t⟩
    · rfl
    · have hl := sorted_lastKey (a :: t) hs (by simp)
      unfold sparseLen
      rw [hl]
      rfl
  · intro he
    subst he
    rfl
  · intro hne
    have hl := sorted_lastKey l hs hne
    unfold sparseDrainLen
    rw [hl]

/-- Witness for C3 amended at the sorted storage `{0 -> 5, 2 -> 9}` and the dense
storage `[some 1]`. -/
theorem c3_bound_amended_witness :
    sparseLen ([(0, 5), (2, 9)] : SparseStorage Nat)
        = List.foldr Nat.max 0 (SparseStorage.keys ([(0, 5), (2, 9)] : SparseStorage Nat))
    ∧ (([(0, 5), (2, 9)] : SparseStorage Nat) = [] →
        sparseDrainLen ([(0, 5), (2, 9)] : SparseStorage Nat) = 0)
    ∧ (([(0, 5), (2, 9)] : SparseStorage Nat) ≠ [] →
        sparseDrainLen ([(0, 5), (2, 9)] : SparseStorage Nat)
          = List.foldr Nat.max 0 (SparseStorage.keys ([(0, 5), (2, 9)] : SparseStorage Nat)) + 1)
    ∧ denseLen ([some 1] : Storage Nat) = ([some 1] : Storage Nat).length :=
  c3_bound_amended [(0, 5), (2, 9)] (by unfold SparseSorted; decide) [some 1]

/-- C5 counterexample: the claim says a drain dropped before exhaustion leaves the
source storage empty.  The dense `Drain` has no `Drop` impl, so dropping the fresh
drain of `[some 7]` leaves the storage unchanged and identifier 0 still present. -/
theorem c5_drain_counterexample :
    Storage.get ([some 7] : Storage Nat) 0 = some 7
    ∧ Drain.drop (([some 7] : Storage Nat), 0) = [some 7]
    ∧ Storage.get (Drain.drop (([some 7] : Storage Nat), 0)) 0 ≠ none :=
  ⟨rfl, rfl, by decide⟩

/-- C5 amended: dropping a sparse drain (at any point, so in particular after full
consumption or before exhaustion) leaves the sparse storage empty; dropping a dense
drain performs no cleanup and returns the storage exactly as it currently is. -/
theorem c5_drain_amended {α : Type} (m : SparseStorage α) (q : Nat) (idx : Nat)
    (d : Storage α) (c : Nat) :
    SparseStorage.get (SparseDrain.drop (m, q)) idx = none
    ∧ Drain.drop (d, c) = d :=
  ⟨rfl, rfl⟩

/-- C6 counterexample: the claim says mirrored operation sequences give identical
join outputs.  After the single operation `insert 0 7` on both fresh storages, the
dense join yields `[7]` but the sparse join yields `[]`. -/
theorem c6_join_counterexample :
    (Storage.insert ([] : Storage Nat) 0 7).1 = (SparseStorage.insert ([] : SparseStorage Nat) 0 7).1
    ∧ joinedItems (Iter Nat) (denseLen (Storage.insert ([] : Storage Nat) 0 7).2) 2
        ((Storage.insert ([] : Storage Nat) 0 7).2, 0) 0 = [7]
    ∧ joinedItems (SparseIter Nat) (sparseLen (SparseStorage.insert ([] : SparseStorage Nat) 0 7).2) 2
        ((SparseStorage.insert ([] : SparseStorage Nat) 0 7).2, 0) 0 = [] :=
  ⟨rfl, rfl, rfl⟩

/-- C6 amended: dense and sparse storages are observationally equivalent at the
operation level: under the correspondence `get d = get s` (with the sparse map
sorted), `insert` and `remove` return identical results and preserve the
correspondence and the sortedness, and so does `clear`; join outputs may differ
(see the counterexample). -/
theorem c6_op_equivalence {α : Type} (d : Storage α) (s : SparseStorage α)
    (hs : SparseSorted s) (hR : ∀ i, Storage.get d i = SparseStorage.get s i)
    (id : Nat) (v : α) (j : Nat) :
    (Storage.insert d id v).1 = (SparseStorage.insert s id v).1
    ∧ Storage.get (Storage.insert d id v).2 j = SparseStorage.get (SparseStorage.insert s id v).2 j
    ∧ SparseSorted (SparseStorage.insert s id v).2
    ∧ (Storage.remove d id).1 = (SparseStorage.remove s id).1
    ∧ Storage.get (Storage.remove d id).2 j = SparseStorage.get (SparseStorage.remove s id).2 j
    ∧ SparseSorted (SparseStorage.remove s id).2
    ∧ Storage.get (Storage.clear d) j = SparseStorage.get (SparseStorage.clear s) j := by
  refine ⟨?_, ?_, sparse_sorted_insert s id v hs, ?_, ?_, sparse_sorted_remove s id hs, ?_⟩
  · rw [storage_insert_ret, sparse_insert_ret s id v hs, hR]
  · by_cases hj : j = id
    · subst hj
      rw [storage_insert_get_self, sparse_insert_get_self]
    · rw [storage_insert_get_ne d id j v hj, sparse_insert_get_ne s id j v hj, hR]
  · rw [storage_remove_ret, sparse_remove_ret s id hs, hR]
  · by_cases hj : j = id
    · subst hj
      rw [storage_remove_get_self, sparse_remove_get_self s j hs]
    · rw [storage_remove_get_ne d id j hj, sparse_remove_get_ne s id j hj, hR]
  · rw [storage_clear_get]
    rfl

/-- Witness for C6 amended: dense `[some 3]` and sparse `{0 -> 3}` correspond; one
`insert 1 5` / `remove 1` / `clear` step preserves everything, checked at j = 0. -/
theorem c6_op_equivalence_witness :
    (Storage.insert ([some 3] : Storage Nat) 1 5).1
        = (SparseStorage.insert ([(0, 3)] : SparseStorage Nat) 1 5).1
    ∧ Storage.get (Storage.insert ([some 3] : Storage Nat) 1 5).2 0
        = SparseStorage.get (SparseStorage.insert ([(0, 3)] : SparseStorage Nat) 1 5).2 0
    ∧ SparseSorted (SparseStorage.insert ([(0, 3)] : SparseStorage Nat) 1 5).2
    ∧ (Storage.remove ([some 3] : Storage Nat) 1).1
        = (SparseStorage.remove ([(0, 3)] : SparseStorage Nat) 1).1
    ∧ Storage.get (Storage.remove ([some 3] : Storage Nat) 1).2 0
        = SparseStorage.get (SparseStorage.remove ([(0, 3)] : SparseStorage Nat) 1).2 0
    ∧ SparseSorted (SparseStorage.remove ([(0, 3)] : SparseStorage Nat) 1).2
    ∧ Storage.get (Storage.clear ([some 3] : Storage Nat)) 0
        = SparseStorage.get (SparseStorage.clear ([(0, 3)] : SparseStorage Nat)) 0 :=
  c6_op_equivalence [some 3] [(0, 3)] (by unfold SparseSorted; decide)
    (fun i => by cases i <;> rfl) 1 5 0

/-- C10: `insert` and `remove` are local on both storage kinds: the value `get j`
observes is unchanged by `insert id v` and by `remove id` whenever `j` differs from
`id` (dense growth fills new slots with `none`, so previously absent identifiers
stay absent). -/
theorem c10_insert_remove_local {α : Type} (d : Storage α) (s : SparseStorage α)
    (id j : Nat) (v : α) (hne : j ≠ id) :
    Storage.get (Storage.insert d id v).2 j = Storage.get d j
    ∧ Storage.get (Storage.remove d id).2 j = Storage.get d j
    ∧ SparseStorage.get (SparseStorage.insert s id v).2 j = SparseStorage.get s j
    ∧ SparseStorage.get (SparseStorage.remove s id).2 j = SparseStorage.get s j :=
  ⟨storage_insert_get_ne d id j v hne, storage_remove_get_ne d id j hne,
   sparse_insert_get_ne s id j v hne, sparse_remove_get_ne s id j hne⟩

/-- Witness for C10 at dense `[some 1, none]`, sparse `{0 -> 1}`, id 0, j 1. -/
theorem c10_insert_remove_local_witness :
    Storage.get (Storage.insert ([some 1, none] : Storage Nat) 0 9).2 1
        = Storage.get ([some 1, none] : Storage Nat) 1
    ∧ Storage.get (Storage.remove ([some 1, none] : Storage Nat) 0).2 1
        = Storage.get ([some 1, none] : Storage Nat) 1
    ∧ SparseStorage.get (SparseStorage.insert ([(0, 1)] : SparseStorage Nat) 0 9).2 1
        = SparseStorage.get ([(0, 1)] : SparseStorage Nat) 1
    ∧ SparseStorage.get (SparseStorage.remove ([(0, 1)] : SparseStorage Nat) 0).2 1
        = SparseStorage.get ([(0, 1)] : SparseStorage Nat) 1 :=
  c10_insert_remove_local [some 1, none] [(0, 1)] 0 1 9 (by decide)

/-- C4: skip hints are sound.  For the dense strategy stalled at `p` (its slice
cursor at `p`), every position in `p .. p + hint` is absent; for the sparse
strategy, the hint at `p` is `next_key_at_or_after(p) - p`, or `usize::MAX` when
no key at or after `p` exists. -/
theorem c4_skip_hint_sound {α : Type} (full : Storage α) (p i : Nat)
    (hi : i < ((Iter α).may_skip (full, p) p).1) (l : SparseStorage α) (q : Nat) :
    Storage.get full (p + i) = none
    ∧ ((SparseIter α).may_skip (l, q) p).1 =
        (match nextKeyAtOrAfter l p with
          | some k => k - p
          | none => USIZE_MAX) := by
  constructor
  · have h2 : i < leadingNones (full.drop p) := hi
    have h3 := leadingNones_spec (full.drop p) i h2
    unfold Storage.get
    rw [← listGet_drop full p i, h3]
    rfl
  · have hkey := rangeNext_key l p
    show (match rangeNext l p with | some e => e.1 - p | none => USIZE_MAX) = _
    cases hr : rangeNext l p with
    | none =>
      rw [hr] at hkey
      rw [← hkey]
      rfl
    | some e =>
      rw [hr] at hkey
      rw [← hkey]
      rfl

/-- Witness for C4 on the dense storage `[none, none, some 5]` stalled at 0 with
offset 1 inside the hint, and the sparse storage `{3 -> 9}` probed at 0. -/
theorem c4_skip_hint_sound_witness :
    Storage.get ([none, none, some 5] : Storage Nat) (0 + 1) = none
    ∧ ((SparseIter Nat).may_skip (([(3, 9)] : SparseStorage Nat), 7) 0).1 =
        (match nextKeyAtOrAfter ([(3, 9)] : SparseStorage Nat) 0 with
          | some k => k - 0
          | none => USIZE_MAX) :=
  c4_skip_hint_sound [none, none, some 5] 0 1 (by decide) [(3, 9)] 7

/-- C2: for every tuple composition of arity 2 to 6, the composite `may_skip` is
the maximum of the component hints at the probed position, and the composite upper
bound is the minimum of the component bounds.  (The tuple `Join` impls and the
arities 5 and 6 are modelled from the spec, being absent from `src`.) -/
theorem c2_tuple_skip_max_bound_min
    {σ₁ σ₂ σ₃ σ₄ σ₅ σ₆ ι₁ ι₂ ι₃ ι₄ ι₅ ι₆ : Type}
    (a : JoinIter σ₁ ι₁) (b : JoinIter σ₂ ι₂) (c : JoinIter σ₃ ι₃) (d : JoinIter σ₄ ι₄)
    (e : JoinIter σ₅ ι₅) (f : JoinIter σ₆ ι₆)
    (s₁ : σ₁) (s₂ : σ₂) (s₃ : σ₃) (s₄ : σ₄) (s₅ : σ₅) (s₆ : σ₆)
    (curr : Nat) (l₁ l₂ l₃ l₄ l₅ l₆ : Nat) :
    (((TupleJoin2 a b).may_skip (s₁, s₂) curr).1
        = List.foldr Nat.max ((b.may_skip s₂ curr).1) [(a.may_skip s₁ curr).1]
      ∧ tupleLen2 l₁ l₂ = List.foldr Nat.min l₂ [l₁])
    ∧ (((TupleJoin3 a b c).may_skip (s₁, s₂, s₃) curr).1
        = List.foldr Nat.max ((c.may_skip s₃ curr).1)
            [(a.may_skip s₁ curr).1, (b.may_skip s₂ curr).1]
      ∧ tupleLen3 l₁ l₂ l₃ = List.foldr Nat.min l₃ [l₁, l₂])
    ∧ (((TupleJoin4 a b c d).may_skip (s₁, s₂, s₃, s₄) curr).1
        = List.foldr Nat.max ((d.may_skip s₄ curr).1)
            [(a.may_skip s₁ curr).1, (b.may_skip s₂ curr).1, (c.may_skip s₃ curr).1]
      ∧ tupleLen4 l₁ l₂ l₃ l₄ = List.foldr Nat.min l₄ [l₁, l₂, l₃])
    ∧ (((TupleJoin5 a b c d e).may_skip (s₁, s₂, s₃, s₄, s₅) curr).1
        = List.foldr Nat.max ((e.may_skip s₅ curr).1)
            [(a.may_skip s₁ curr).1, (b.may_skip s₂ curr).1, (c.may_skip s₃ curr).1,
             (d.may_skip s₄ curr).1]
      ∧ tupleLen5 l₁ l₂ l₃ l₄ l₅ = List.foldr Nat.min l₅ [l₁, l₂, l₃, l₄])
    ∧ (((TupleJoin6 a b c d e f).may_skip (s₁, s₂, s₃, s₄, s₅, s₆) curr).1
        = List.foldr Nat.max ((f.may_skip s₆ curr).1)
            [(a.may_skip s₁ curr).1, (b.may_skip s₂ curr).1, (c.may_skip s₃ curr).1,
             (d.may_skip s₄ curr).1, (e.may_skip s₅ curr).1]
      ∧ tupleLen6 l₁ l₂ l₃ l₄ l₅ l₆ = List.foldr Nat.min l₆ [l₁, l₂, l₃, l₄, l₅]) := by
  refine ⟨⟨rfl, rfl⟩, ⟨rfl, ?_⟩, ⟨rfl, ?_⟩, ⟨rfl, ?_⟩, ⟨rfl, ?_⟩⟩
  · exact nat_min_assoc l₁ l₂ l₃
  · show Nat.min (Nat.min (Nat.min l₁ l₂) l₃) l₄ = List.foldr Nat.min l₄ [l₁, l₂, l₃]
    rw [nat_min_assoc, nat_min_assoc]
    rfl
  · show Nat.min (Nat.min (Nat.min (Nat.min l₁ l₂) l₃) l₄) l₅
        = List.foldr Nat.min l₅ [l₁, l₂, l₃, l₄]
    rw [nat_min_assoc, nat_min_assoc, nat_min_assoc]
    rfl
  · show Nat.min (Nat.min (Nat.min (Nat.min (Nat.min l₁ l₂) l₃) l₄) l₅) l₆
        = List.foldr Nat.min l₆ [l₁, l₂, l₃, l₄, l₅]
    rw [nat_min_assoc, nat_min_assoc, nat_min_assoc, nat_min_assoc]
    rfl

/-- One lockstep step of `(A, B.maybe())` behaves exactly like a step of `A`
alone: same yields, same positions, the `A` component evolving identically. -/
theorem maybe_pair_run {σa σb ιa ιb : Type} (A : JoinIter σa ιa) (B : JoinIter σb ιb)
    (len : Nat) : ∀ (fuel : Nat) (sa : σa) (sb : σb) (pos : Nat),
    (joinedRun (TupleJoin2 A (Maybe B)) len fuel (sa, sb) pos).map (fun r => (r.1.1, r.2))
      = joinedRun A len fuel sa pos := by
  intro fuel
  induction fuel with
  | zero => intro sa sb pos; rfl
  | succ fuel ih =>
    intro sa sb pos
    rw [joinedRun_succ, joinedRun_succ, joinedNext_eq, joinedNext_eq]
    rcases maybe_pair_loop A B len (len - pos) pos sa sb with ⟨h1, h2⟩ |
      ⟨x, y, sa1, sb1, pos1, h1, h2⟩
    · rw [h1, h2]
      rfl
    · rw [h1, h2]
      dsimp only [List.map]
      rw [ih sa1 sb1 pos1]

/-- C7: wrapping a source in `maybe` never shortens a join: the join of
`(A, B.maybe())` (bound `min(lenA, usize::MAX)` as built by `join`) yields items at
exactly the positions of the join of `A` alone, with the same `A` values and hence
the same number of items, for every fuel, initial states and start position. -/
theorem c7_maybe_never_shortens {σa σb ιa ιb : Type} (A : JoinIter σa ιa)
    (B : JoinIter σb ιb) (lenA : Nat) (h : lenA ≤ USIZE_MAX) (fuel : Nat)
    (sa : σa) (sb : σb) (pos : Nat) :
    (joinedRun (TupleJoin2 A (Maybe B)) (tupleLen2 lenA USIZE_MAX) fuel (sa, sb) pos).map
        (fun r => (r.1.1, r.2))
      = joinedRun A lenA fuel sa pos := by
  have hlen : tupleLen2 lenA USIZE_MAX = lenA := by
    show Nat.min lenA USIZE_MAX = lenA
    exact Nat.min_eq_left h
  rw [hlen]
  exact maybe_pair_run A B lenA fuel sa sb pos

/-- Witness for C7: a dense storage `[some 3]` joined with the maybe-wrapped
dense strategy of the empty storage, three fuel steps from the initial state. -/
theorem c7_maybe_never_shortens_witness :
    (joinedRun (TupleJoin2 (Iter Nat) (Maybe (Iter Nat)))
        (tupleLen2 (denseLen ([some 3] : Storage Nat)) USIZE_MAX) 3
        ((([some 3] : Storage Nat), 0), (([] : Storage Nat), 0)) 0).map
        (fun r => (r.1.1, r.2))
      = joinedRun (Iter Nat) (denseLen ([some 3] : Storage Nat)) 3
          ((([some 3] : Storage Nat), 0)) 0 :=
  c7_maybe_never_shortens (Iter Nat) (Iter Nat) (denseLen [some 3]) (by decide) 3
    ([some 3], 0) ([], 0) 0

/-- C8: negation round-trip.  Joining `(storage, !storage)` yields the empty
sequence for both storage kinds, and `(!storage, !storage)` yields at exactly the
positions `!storage` alone yields, again for both kinds (bounds as built by
`join`: `min` with `usize::MAX` for the pair, `usize::MAX` for the negation). -/
theorem c8_negation_roundtrip {α : Type} (d : Storage α) (m : SparseStorage α)
    (fuel : Nat) :
    joinedRun (TupleJoin2 (Iter α) (NegatedIter α)) (tupleLen2 (denseLen d) USIZE_MAX) fuel
        ((d, 0), (d, 0)) 0 = []
    ∧ joinedRun (TupleJoin2 (SparseIter α) (NegatedSparseIter α))
        (tupleLen2 (sparseLen m) USIZE_MAX) fuel ((m, 0), (m, 0)) 0 = []
    ∧ (joinedRun (TupleJoin2 (NegatedIter α) (NegatedIter α)) (tupleLen2 USIZE_MAX USIZE_MAX)
          fuel ((d, 0), (d, 0)) 0).map Prod.snd
        = (joinedRun (NegatedIter α) USIZE_MAX fuel (d, 0) 0).map Prod.snd
    ∧ (joinedRun (TupleJoin2 (NegatedSparseIter α) (NegatedSparseIter α))
          (tupleLen2 USIZE_MAX USIZE_MAX) fuel ((m, 0), (m, 0)) 0).map Prod.snd
        = (joinedRun (NegatedSparseIter α) USIZE_MAX fuel (m, 0) 0).map Prod.snd := by
  have hmin : tupleLen2 USIZE_MAX USIZE_MAX = USIZE_MAX := by
    show Nat.min USIZE_MAX USIZE_MAX = USIZE_MAX
    exact Nat.min_self ..
  refine ⟨dense_neg_run d _ fuel 0 0, sparse_neg_run m _ fuel 0 0, ?_, ?_⟩
  · rw [hmin]
    exact dense_negneg_run d USIZE_MAX fuel 0 0
  · rw [hmin]
    exact sparse_negneg_run m USIZE_MAX fuel 0 0
